import Mathlib

/-!
Verification of the kwat.py / kraft kernel-density-estimation core and the
dataframe `drop_until` loop, as a shallow embedding in Lean 4.

Numbers are modelled as exact rationals (`ℚ`); floating-point special values
(NaN, ±∞) that the kernel evaluation may produce are modelled explicitly by
the type `RVal`.  Fallible code (Python `IndexError` on sequence indexing)
is modelled with `Except String`.  External collaborators (the KDEpy FFTKDE
evaluator, the plotting step) are modelled as parameters or omitted
(plotting does not affect the returned values).
-/

namespace Kraft

/-- A runtime numeric value: an ordinary (finite) real, modelled as `ℚ`,
or one of the IEEE-754 special values NaN, +∞, -∞. -/
inductive RVal where
  | NaN : RVal
  | PInf : RVal
  | NInf : RVal
  | fin : ℚ → RVal
deriving DecidableEq, Repr

/-- Modelled from the spec: `ALMOST_ZERO`, the small positive floor constant
for clamped densities (its source file is not in the reviewed tree; the spec
requires only a small positive constant). -/
def ALMOST_ZERO : ℚ := 1 / 100000000

/-- Modelled from the spec: the library-wide default fractional grid
extension (spec: "default constant, e.g. 0.1"). -/
def DIMENSION_FRACTION_GRID_EXTENSION : ℚ := 1 / 10

/-- Modelled from the spec: the library-wide default grid resolution
(spec: "default constant, e.g. 100 points"). -/
def DIMENSION_N_GRID : ℕ := 100

/-- `numpy.clip(x, min=floor, max=None)` on one element: elementwise
`maximum(x, floor)`, under which NaN propagates, `+∞` stays `+∞`, and `-∞`
is raised to the floor. -/
def clipFloor (floor : ℚ) : RVal → RVal
  | RVal.NaN => RVal.NaN
  | RVal.PInf => RVal.PInf
  | RVal.NInf => RVal.fin floor
  | RVal.fin q => RVal.fin (max q floor)

/-- Empirical minimum of a vector (`vector.min()`); junk value 0 on the
empty vector, on which the source raises. -/
def vmin : List ℚ → ℚ
  | [] => 0
  | x :: xs => xs.foldl min x

/-- Empirical maximum of a vector (`vector.max()`); junk value 0 on the
empty vector, on which the source raises. -/
def vmax : List ℚ → ℚ
  | [] => 0
  | x :: xs => xs.foldl max x

/-- `numpy.linspace(a, b, num=n)` in exact arithmetic: `n` evenly spaced
values from `a` to `b`, both endpoints included when `n ≥ 2`; `[a]` when
`n = 1`; `[]` when `n = 0`. -/
def linspace (a b : ℚ) (n : ℕ) : List ℚ :=
  if n = 0 then []
  else if n = 1 then [a]
  else (List.range n).map (fun i : ℕ => a + (i : ℚ) * ((b - a) / ((n : ℚ) - 1)))

/-- The lower end of an extended grid range: `grid_min - extension`, with
`grid_min` resolved from the override or the empirical minimum and
`extension = (grid_max - grid_min) * fraction`. -/
def gridLo (vector : List ℚ) (grid_min grid_max : Option ℚ) (f : ℚ) : ℚ :=
  grid_min.getD (vmin vector) - (grid_max.getD (vmax vector) - grid_min.getD (vmin vector)) * f

/-- The upper end of an extended grid range: `grid_max + extension`. -/
def gridHi (vector : List ℚ) (grid_min grid_max : Option ℚ) (f : ℚ) : ℚ :=
  grid_max.getD (vmax vector) + (grid_max.getD (vmax vector) - grid_min.getD (vmin vector)) * f

/-- The uniform spacing of an `n_grid`-point grid over the extended range. -/
def gridStep (vector : List ℚ) (grid_min grid_max : Option ℚ) (f : ℚ) (n_grid : ℕ) : ℚ :=
  (gridHi vector grid_min grid_max f - gridLo vector grid_min grid_max f) / ((n_grid : ℚ) - 1)

/-- Translation of `kraft/make_vector_grid.py`:
resolve `grid_min`/`grid_max` from the overrides or the empirical
min/max, extend the range by `fraction_grid_extension`, and return
`linspace(grid_min - extension, grid_max + extension, n_grid)`. -/
def make_vector_grid (vector : List ℚ) (grid_min grid_max : Option ℚ)
    (fraction_grid_extension : ℚ) (n_grid : ℕ) : List ℚ :=
  let gmin := grid_min.getD (vmin vector)
  let gmax := grid_max.getD (vmax vector)
  let grid_range := gmax - gmin
  let grid_extension := grid_range * fraction_grid_extension
  linspace (gmin - grid_extension) (gmax + grid_extension) n_grid

/-- Modelled from the spec: `make_mesh_grid_point_x_dimension` (its source
file is not in the reviewed tree; only its call site is).  Per the spec, the
Mesh Assembler forms the full Cartesian product of the Dimension Grids as an
ordered sequence of d-tuples in column order, with a fixed, reproducible
enumeration order (numpy `meshgrid(..., indexing="ij")` order: the first
dimension varies slowest). -/
def make_mesh_grid_point_x_dimension : List (List ℚ) → List (List ℚ)
  | [] => [[]]
  | g :: gs => g.flatMap (fun x => (make_mesh_grid_point_x_dimension gs).map (fun p => x :: p))

/-- Modelled from the spec: `compute_vector_bandwidth` (its source file is
not in the reviewed tree).  The spec's contract (§4.1) requires only a
dispersion-based heuristic that shrinks with sample size and widens with
spread, floored to a small positive constant on degenerate input; the exact
rule is left open (§9).  Modelled as spread divided by sample size, floored
at `ALMOST_ZERO`. -/
def compute_vector_bandwidth (vector : List ℚ) : ℚ :=
  max ALMOST_ZERO ((vmax vector - vmin vector) / (vector.length : ℚ))

/-- Column `i` of a row-major Sample Matrix (`element_x_dimension[:, i]`);
numpy matrices are rectangular, so out-of-range padding is never exercised
under the rectangularity hypotheses of the theorems below. -/
def column (element_x_dimension : List (List ℚ)) (i : ℕ) : List ℚ :=
  element_x_dimension.map (fun row => row.getD i 0)

/-- `element_x_dimension.shape[1]`: the column count of a row-major
matrix. -/
def nDim (element_x_dimension : List (List ℚ)) : ℕ :=
  (element_x_dimension.headD []).length

/-- Python sequence indexing `xs[i]`: the element when `i` is in range,
an `IndexError` otherwise. -/
def cfgGet (xs : List α) (i : ℕ) : Except String α :=
  match xs[i]? with
  | some x => Except.ok x
  | none => Except.error "IndexError"

/-- The bandwidth-factor scaling loop of the Density Evaluator:
`tuple(dimension_bandwidths[i] * dimension_bandwidth_factors[i] for i in
range(n_dimension))`, starting at index `i` with `k` iterations left;
either sequence too short surfaces an `IndexError`. -/
def scaleBW (bws factors : List ℚ) : ℕ → ℕ → Except String (List ℚ)
  | _, 0 => Except.ok []
  | i, k + 1 => do
      let b ← cfgGet bws i
      let f ← cfgGet factors i
      let rest ← scaleBW bws factors (i + 1) k
      Except.ok (b * f :: rest)

/-- The grid-building loop of the Density Evaluator:
`make_vector_grid(element_x_dimension[:, i], dimension_grid_mins[i],
dimension_grid_maxs[i], dimension_fraction_grid_extensions[i],
dimension_n_grids[i]) for i in range(n_dimension)`, starting at index `i`
with `k` iterations left; any per-dimension configuration sequence too
short surfaces an `IndexError`. -/
def buildGrids (m : List (List ℚ)) (mins maxs : List (Option ℚ))
    (fracs : List ℚ) (ngrids : List ℕ) : ℕ → ℕ → Except String (List (List ℚ))
  | _, 0 => Except.ok []
  | i, k + 1 => do
      let mn ← cfgGet mins i
      let mx ← cfgGet maxs i
      let fr ← cfgGet fracs i
      let ng ← cfgGet ngrids i
      let rest ← buildGrids m mins maxs fracs ngrids (i + 1) k
      Except.ok (make_vector_grid (column m i) mn mx fr ng :: rest)

/-- The bandwidths the Density Evaluator computes when none are supplied:
`tuple(compute_vector_bandwidth(element_x_dimension[:, i]) for i in
range(n_dimension))`. -/
def autoBandwidths (element_x_dimension : List (List ℚ)) : List ℚ :=
  (List.range (nDim element_x_dimension)).map
    (fun i => compute_vector_bandwidth (column element_x_dimension i))

/-- Translation of `kraft/estimate_element_x_dimension_kernel_density.py`.
`fftkde` models the external KDEpy call
`FFTKDE(bw=bandwidths).fit(data).evaluate(points)` as a parameter
(bandwidths, data, evaluation points ↦ raw density values, possibly
non-finite).  The function resolves the bandwidths (supplied, else
auto-estimated; then factor-scaled if factors are given), resolves the
per-dimension grid configuration to library defaults where omitted, builds
one Dimension Grid per dimension, assembles the Mesh Grid, evaluates the
kernel density at every mesh point and clips the result at `ALMOST_ZERO`.
The plotting step is an external collaborator that does not alter the
returned values and is omitted. -/
def estimate_element_x_dimension_kernel_density
    (fftkde : List ℚ → List (List ℚ) → List (List ℚ) → List RVal)
    (element_x_dimension : List (List ℚ))
    (dimension_bandwidths : Option (List ℚ))
    (dimension_bandwidth_factors : Option (List ℚ))
    (dimension_grid_mins : Option (List (Option ℚ)))
    (dimension_grid_maxs : Option (List (Option ℚ)))
    (dimension_fraction_grid_extensions : Option (List ℚ))
    (dimension_n_grids : Option (List ℕ)) :
    Except String (List (List ℚ) × List RVal) := do
  let n_dimension := nDim element_x_dimension
  let bws0 :=
    match dimension_bandwidths with
    | none => autoBandwidths element_x_dimension
    | some bws => bws
  let bws ←
    match dimension_bandwidth_factors with
    | none => Except.ok bws0
    | some factors => scaleBW bws0 factors 0 n_dimension
  let mins := dimension_grid_mins.getD (List.replicate n_dimension none)
  let maxs := dimension_grid_maxs.getD (List.replicate n_dimension none)
  let fracs := dimension_fraction_grid_extensions.getD
    (List.replicate n_dimension DIMENSION_FRACTION_GRID_EXTENSION)
  let ngrids := dimension_n_grids.getD (List.replicate n_dimension DIMENSION_N_GRID)
  let grids ← buildGrids element_x_dimension mins maxs fracs ngrids 0 n_dimension
  let mesh := make_mesh_grid_point_x_dimension grids
  let dens := (fftkde bws element_x_dimension mesh).map (clipFloor ALMOST_ZERO)
  Except.ok (mesh, dens)

/-- A kernel-evaluation stub producing a NaN raw density at every mesh
point, exercising the non-finiteness guard of the floor-clamp step. -/
def nanKernel : List ℚ → List (List ℚ) → List (List ℚ) → List RVal :=
  fun _ _ points => points.map (fun _ => RVal.NaN)

/-- A kernel-evaluation stub producing a `+∞` raw density at every mesh
point. -/
def pinfKernel : List ℚ → List (List ℚ) → List (List ℚ) → List RVal :=
  fun _ _ points => points.map (fun _ => RVal.PInf)

/-- A benign kernel-evaluation stub producing the finite raw density 1 at
every mesh point. -/
def oneKernel : List ℚ → List (List ℚ) → List (List ℚ) → List RVal :=
  fun _ _ points => points.map (fun _ => RVal.fin 1)

end Kraft

namespace Kwat

/-- `ax = int(sh1[0] < sh1[1])`: the starting axis when none is supplied. -/
def axInit (sh : ℕ × ℕ) : ℕ :=
  if sh.1 < sh.2 then 1 else 0

/-- The axis toggle at the bottom of the `drop_until` loop:
`0 ↦ 1`, `1 ↦ 0`, anything else unchanged. -/
def toggleAx (ax : ℕ) : ℕ :=
  if ax = 0 then 1 else if ax = 1 then 0 else ax

/-- The `while True` loop of `kwat/dataframe/drop_until.py`, with explicit
fuel (the source loop is unbounded; termination is proved below).  `da` is
the current dataframe, `ax` the current axis, `sh1` the shape recorded
before the next `drop` call, `re` the flag set after the first iteration,
and `k` the number of `drop` calls made so far.  Returns the final
dataframe together with the total number of `drop` calls. -/
def dropUntilAux (drop : α → ℕ → α) (shape : α → ℕ × ℕ) :
    ℕ → α → ℕ → ℕ × ℕ → Bool → ℕ → Option (α × ℕ)
  | 0, _, _, _, _, _ => none
  | fuel + 1, da, ax, sh1, re, k =>
      if re = true ∧ sh1 = shape (drop da ax) then some (drop da ax, k + 1)
      else dropUntilAux drop shape fuel (drop da ax) (toggleAx ax) (shape (drop da ax))
        true (k + 1)

/-- Translation of `kwat/dataframe/drop_until.py`, parameterised by the
`drop` operation (`drop.py` is an external sibling; the claim assumes only
that it never grows the shape) and the `shape` observation.  The fuel
`sh.1 + sh.2 + 2` is shown sufficient below whenever `drop` never grows
the shape. -/
def drop_until (drop : α → ℕ → α) (shape : α → ℕ × ℕ)
    (da : α) (axOpt : Option ℕ) : Option (α × ℕ) :=
  let sh1 := shape da
  let ax := axOpt.getD (axInit sh1)
  dropUntilAux drop shape (sh1.1 + sh1.2 + 2) da ax sh1 false 0

/-- The sequence of (dataframe, axis) states reached by iterating the
`drop_until` loop body: `dSeq drop da ax n` is the state after `n` `drop`
calls starting from `(da, ax)`. -/
def dSeq (drop : α → ℕ → α) (da : α) (ax : ℕ) : ℕ → α × ℕ
  | 0 => (da, ax)
  | n + 1 =>
      let p := dSeq drop da ax n
      (drop p.1 p.2, toggleAx p.2)

end Kwat

namespace Kraft

lemma linspace_length (a b : ℚ) (n : ℕ) : (linspace a b n).length = n := by
  unfold linspace
  split_ifs with h0 h1
  · simp [h0]
  · simp [h1]
  · simp

lemma linspace_eq_map (a b : ℚ) {n : ℕ} (hn : 2 ≤ n) :
    linspace a b n = (List.range n).map fun i : ℕ => a + (i : ℚ) * ((b - a) / ((n : ℚ) - 1)) := by
  unfold linspace
  rw [if_neg (by omega), if_neg (by omega)]

lemma make_vector_grid_eq (v : List ℚ) (gm gM : Option ℚ) (f : ℚ) (n : ℕ) :
    make_vector_grid v gm gM f n = linspace (gridLo v gm gM f) (gridHi v gm gM f) n := rfl

lemma make_vector_grid_eq_map (v : List ℚ) (gm gM : Option ℚ) (f : ℚ) {n : ℕ} (hn : 2 ≤ n) :
    make_vector_grid v gm gM f n
      = (List.range n).map fun i : ℕ => gridLo v gm gM f + (i : ℚ) * gridStep v gm gM f n := by
  rw [make_vector_grid_eq, linspace_eq_map _ _ hn]
  rfl

lemma make_vector_grid_length (v : List ℚ) (gm gM : Option ℚ) (f : ℚ) (n : ℕ) :
    (make_vector_grid v gm gM f n).length = n := by
  rw [make_vector_grid_eq]
  exact linspace_length _ _ _

lemma make_vector_grid_getElem? (v : List ℚ) (gm gM : Option ℚ) (f : ℚ) {n i : ℕ}
    (hn : 2 ≤ n) (hi : i < n) :
    (make_vector_grid v gm gM f n)[i]? =
      some (gridLo v gm gM f + (i : ℚ) * gridStep v gm gM f n) := by
  rw [make_vector_grid_eq_map v gm gM f hn, List.getElem?_map, List.getElem?_range hi]
  rfl

lemma gridLo_lt_gridHi (v : List ℚ) (f : ℚ) (hv : vmin v < vmax v) (hf : 0 ≤ f) :
    gridLo v none none f < gridHi v none none f := by
  unfold gridLo gridHi
  simp only [Option.getD_none]
  nlinarith

lemma gridStep_pos (v : List ℚ) (f : ℚ) {n : ℕ} (hv : vmin v < vmax v) (hf : 0 ≤ f)
    (hn : 2 ≤ n) : 0 < gridStep v none none f n := by
  have h1 : (2 : ℚ) ≤ (n : ℚ) := by exact_mod_cast hn
  exact div_pos (sub_pos.mpr (gridLo_lt_gridHi v f hv hf)) (by linarith)

/-- C4 (amended: the spanning/endpoint guarantee requires `n_grid ≥ 2`; for
`n_grid ≤ 1` only the lower endpoint, or nothing, is returned — see the
counterexample): `make_vector_grid` resolves min/max from the overrides or
the empirical min/max, computes `extension = range * fraction`, and returns
exactly `n_grid` evenly spaced points spanning
`[min - extension, max + extension]` with both endpoints included; on a
vector with min 0 and max 10, fraction 1/10 and 5 points, it returns
exactly `[-1, 2, 5, 8, 11]`. -/
theorem make_vector_grid_evenly_spaced (v : List ℚ) (gm gM : Option ℚ) (f : ℚ) (n : ℕ)
    (hn : 2 ≤ n) :
    (make_vector_grid v gm gM f n).length = n ∧
    (∀ i, i < n → (make_vector_grid v gm gM f n)[i]? =
      some (gridLo v gm gM f + (i : ℚ) * gridStep v gm gM f n)) ∧
    (make_vector_grid v gm gM f n)[0]? = some (gridLo v gm gM f) ∧
    (make_vector_grid v gm gM f n)[n - 1]? = some (gridHi v gm gM f) ∧
    make_vector_grid [0, 10] none none (1 / 10) 5 = [-1, 2, 5, 8, 11] := by
  have hcast : (2 : ℚ) ≤ (n : ℚ) := by exact_mod_cast hn
  refine ⟨make_vector_grid_length v gm gM f n, fun i hi => make_vector_grid_getElem? v gm gM f hn hi, ?_, ?_, ?_⟩
  · rw [make_vector_grid_getElem? v gm gM f hn (by omega)]
    norm_num
  · rw [make_vector_grid_getElem? v gm gM f hn (by omega)]
    have hne : (n : ℚ) - 1 ≠ 0 := by linarith
    have hc : ((n - 1 : ℕ) : ℚ) = (n : ℚ) - 1 := by
      have : 1 ≤ n := by omega
      push_cast [this]
      ring
    unfold gridStep
    rw [hc]
    field_simp
  · norm_num [make_vector_grid, linspace, vmin, vmax, List.range_succ]

/-- C4 counterexample: with `n_grid = 1` the returned grid is the single
point `min - extension`; the upper endpoint `max + extension = 11` is not
included, so the grid does not span the stated interval and the claim as
stated (for every `n_grid`) is false. -/
theorem make_vector_grid_single_point_cex :
    make_vector_grid [0, 10] none none (1 / 10) 1 = [-1] ∧
    (11 : ℚ) ∉ make_vector_grid [0, 10] none none (1 / 10) 1 := by
  constructor <;> norm_num [make_vector_grid, linspace, vmin, vmax]

/-- C5 (amended: strict increase holds for dimensions whose column is not
constant, i.e. empirical min < max, with a nonnegative extension fraction
and `n_grid ≥ 2`; a constant column yields a constant grid — see the
counterexample; the length is always `n_grid`): the Dimension Grid is
strictly increasing with constant spacing
`((max+ext) - (min-ext)) / (n_grid - 1)` and has length exactly
`n_grid`. -/
theorem make_vector_grid_strictly_increasing (v : List ℚ) (f : ℚ) (n : ℕ)
    (hv : vmin v < vmax v) (hf : 0 ≤ f) (hn : 2 ≤ n) :
    (make_vector_grid v none none f n).length = n ∧
    List.Pairwise (· < ·) (make_vector_grid v none none f n) ∧
    (∀ i, i + 1 < n →
      (make_vector_grid v none none f n).getD (i + 1) 0
        - (make_vector_grid v none none f n).getD i 0 = gridStep v none none f n) := by
  have hstep := gridStep_pos v f hv hf hn
  refine ⟨make_vector_grid_length v none none f n, ?_, ?_⟩
  · rw [make_vector_grid_eq_map v none none f hn, List.pairwise_map]
    refine (List.pairwise_lt_range n).imp ?_
    intro a b hab
    have hc : (a : ℚ) < (b : ℚ) := by exact_mod_cast hab
    have := mul_lt_mul_of_pos_right hc hstep
    linarith
  · intro i hi
    rw [List.getD_eq_getElem?_getD, List.getD_eq_getElem?_getD,
      make_vector_grid_getElem? v none none f hn hi,
      make_vector_grid_getElem? v none none f hn (by omega)]
    simp only [Option.getD_some]
    push_cast
    ring

/-- C5 counterexample: a constant (zero-variance) column yields a constant
Dimension Grid, which is not strictly increasing, so the claim as stated
(for every dimension of every Sample Matrix) is false; shown on the
Sample Matrix `[[5],[5]]`, whose single column is `[5, 5]`. -/
theorem make_vector_grid_constant_column_not_increasing :
    column [[5], [5]] 0 = [5, 5] ∧
    make_vector_grid [5, 5] none none (1 / 10) 3 = [5, 5, 5] ∧
    ¬ List.Pairwise (· < ·) (make_vector_grid [5, 5] none none (1 / 10) 3) := by
  refine ⟨by norm_num [column], ?_, ?_⟩ <;>
    norm_num [make_vector_grid, linspace, vmin, vmax, List.range_succ]

/-- C8: with explicit overrides `grid_min > grid_max` and a positive
extension fraction, `make_vector_grid` raises no error (there is no
precondition check): the computed extension is negative and the returned
grid has `n_grid` strictly decreasing points, running from
`grid_min - extension` down to `grid_max + extension`. -/
theorem make_vector_grid_reversed_overrides_decreasing (v : List ℚ) (gm gM f : ℚ) (n : ℕ)
    (hgt : gM < gm) (hf : 0 < f) :
    (make_vector_grid v (some gm) (some gM) f n).length = n ∧
    (gM - gm) * f < 0 ∧
    List.Pairwise (fun a b : ℚ => b < a) (make_vector_grid v (some gm) (some gM) f n) := by
  refine ⟨make_vector_grid_length v (some gm) (some gM) f n,
    mul_neg_of_neg_of_pos (by linarith) hf, ?_⟩
  match n with
  | 0 => simp [make_vector_grid_eq, linspace]
  | 1 => simp [make_vector_grid_eq, linspace]
  | (k + 2) =>
    have hn : 2 ≤ k + 2 := by omega
    have hhl : gridHi v (some gm) (some gM) f < gridLo v (some gm) (some gM) f := by
      unfold gridLo gridHi
      simp only [Option.getD_some]
      nlinarith
    have hcast : (2 : ℚ) ≤ ((k + 2 : ℕ) : ℚ) := by exact_mod_cast hn
    have hstep : gridStep v (some gm) (some gM) f (k + 2) < 0 :=
      div_neg_of_neg_of_pos (by linarith [hhl]) (by linarith)
    rw [make_vector_grid_eq_map v (some gm) (some gM) f hn, List.pairwise_map]
    refine (List.pairwise_lt_range (k + 2)).imp ?_
    intro a b hab
    have hc : (a : ℚ) < (b : ℚ) := by exact_mod_cast hab
    have := mul_lt_mul_of_neg_right hc hstep
    linarith

/-- C9: with `n_grid = 1` and a non-constant vector, the grid is the single
point `grid_min - extension`; the upper endpoint `grid_max + extension` is
not included, so the grid does not span the stated interval. -/
theorem make_vector_grid_single_point (v : List ℚ) (f : ℚ)
    (hv : vmin v < vmax v) (hf : 0 ≤ f) :
    make_vector_grid v none none f 1 = [gridLo v none none f] ∧
    gridHi v none none f ∉ make_vector_grid v none none f 1 := by
  have h1 : make_vector_grid v none none f 1 = [gridLo v none none f] := by
    rw [make_vector_grid_eq]
    unfold linspace
    norm_num
  refine ⟨h1, ?_⟩
  rw [h1]
  simp only [List.mem_singleton]
  exact ne_of_gt (gridLo_lt_gridHi v f hv hf)

lemma bind_ok_iff {α β : Type} (a : Except String α) (f : α → Except String β) (c : β) :
    (a >>= f) = Except.ok c ↔ ∃ b, a = Except.ok b ∧ f b = Except.ok c := by
  cases a <;> simp [Bind.bind, Except.bind]

lemma cfgGet_ok_of_lt {α : Type} {xs : List α} {i : ℕ} (h : i < xs.length) (d : α) :
    cfgGet xs i = Except.ok (xs.getD i d) := by
  unfold cfgGet
  rw [List.getElem?_eq_getElem h, List.getD_eq_getElem?_getD, List.getElem?_eq_getElem h]
  rfl

lemma cfgGet_error_of_le {α : Type} {xs : List α} {i : ℕ} (h : xs.length ≤ i) :
    cfgGet xs i = Except.error "IndexError" := by
  unfold cfgGet
  rw [List.getElem?_eq_none h]

lemma cfgGet_lt_of_ok {α : Type} {xs : List α} {i : ℕ} {x : α}
    (h : cfgGet xs i = Except.ok x) : i < xs.length := by
  unfold cfgGet at h
  cases hx : xs[i]? with
  | none => rw [hx] at h; cases h
  | some y => exact (List.getElem?_eq_some.mp hx).1

lemma cfgGet_take {α : Type} {xs : List α} {i d : ℕ} (h : i < d) :
    cfgGet (xs.take d) i = cfgGet xs i := by
  unfold cfgGet
  rw [List.getElem?_take_of_lt h]

lemma buildGrids_bounds_of_ok {m : List (List ℚ)} {mins maxs : List (Option ℚ)}
    {fracs : List ℚ} {ngrids : List ℕ} : ∀ {k i : ℕ} {gs : List (List ℚ)},
    buildGrids m mins maxs fracs ngrids i k = Except.ok gs →
    ∀ j, j < k → i + j < mins.length ∧ i + j < maxs.length ∧
      i + j < fracs.length ∧ i + j < ngrids.length := by
  intro k
  induction k with
  | zero => intro i gs _ j hj; omega
  | succ k ih =>
    intro i gs h j hj
    simp only [buildGrids, bind_ok_iff] at h
    obtain ⟨mn, hmn, mx, hmx, fr, hfr, ng, hng, rest, hrest, _⟩ := h
    match j with
    | 0 =>
      exact ⟨by have := cfgGet_lt_of_ok hmn; omega, by have := cfgGet_lt_of_ok hmx; omega,
        by have := cfgGet_lt_of_ok hfr; omega, by have := cfgGet_lt_of_ok hng; omega⟩
    | (j' + 1) =>
      have := ih hrest j' (by omega)
      exact ⟨by omega, by omega, by omega, by omega⟩

lemma buildGrids_ok_of_bounds (m : List (List ℚ)) (mins maxs : List (Option ℚ))
    (fracs : List ℚ) (ngrids : List ℕ) : ∀ k i : ℕ,
    (∀ j, j < k → i + j < mins.length ∧ i + j < maxs.length ∧
      i + j < fracs.length ∧ i + j < ngrids.length) →
    ∃ gs, buildGrids m mins maxs fracs ngrids i k = Except.ok gs := by
  intro k
  induction k with
  | zero => exact fun _ _ => ⟨[], rfl⟩
  | succ k ih =>
    intro i h
    obtain ⟨h1, h2, h3, h4⟩ := h 0 (by omega)
    simp only [Nat.add_zero] at h1 h2 h3 h4
    obtain ⟨rest, hrest⟩ := ih (i + 1) (fun j hj => by
      obtain ⟨a, b, c, d⟩ := h (j + 1) (by omega)
      exact ⟨by omega, by omega, by omega, by omega⟩)
    refine ⟨make_vector_grid (column m i) (mins.getD i none) (maxs.getD i none)
      (fracs.getD i 0) (ngrids.getD i 0) :: rest, ?_⟩
    simp only [buildGrids, cfgGet_ok_of_lt h1 none, cfgGet_ok_of_lt h2 none,
      cfgGet_ok_of_lt h3 0, cfgGet_ok_of_lt h4 0, hrest, Bind.bind, Except.bind]

lemma buildGrids_error_of_short (m : List (List ℚ)) (mins maxs : List (Option ℚ))
    (fracs : List ℚ) (ngrids : List ℕ) (k i : ℕ)
    (h : ¬ ∀ j, j < k → i + j < mins.length ∧ i + j < maxs.length ∧
      i + j < fracs.length ∧ i + j < ngrids.length) :
    ∃ e, buildGrids m mins maxs fracs ngrids i k = Except.error e := by
  cases hb : buildGrids m mins maxs fracs ngrids i k with
  | ok gs => exact absurd (buildGrids_bounds_of_ok hb) h
  | error e => exact ⟨e, rfl⟩

lemma scaleBW_bounds_of_ok {bws factors : List ℚ} : ∀ {k i : ℕ} {ys : List ℚ},
    scaleBW bws factors i k = Except.ok ys →
    ∀ j, j < k → i + j < bws.length ∧ i + j < factors.length := by
  intro k
  induction k with
  | zero => intro i ys _ j hj; omega
  | succ k ih =>
    intro i ys h j hj
    simp only [scaleBW, bind_ok_iff] at h
    obtain ⟨b, hb, f, hf, rest, hrest, _⟩ := h
    match j with
    | 0 =>
      exact ⟨by have := cfgGet_lt_of_ok hb; omega, by have := cfgGet_lt_of_ok hf; omega⟩
    | (j' + 1) =>
      have := ih hrest j' (by omega)
      exact ⟨by omega, by omega⟩

lemma scaleBW_ok_of_bounds (bws factors : List ℚ) : ∀ k i : ℕ,
    (∀ j, j < k → i + j < bws.length ∧ i + j < factors.length) →
    ∃ ys, scaleBW bws factors i k = Except.ok ys := by
  intro k
  induction k with
  | zero => exact fun _ _ => ⟨[], rfl⟩
  | succ k ih =>
    intro i h
    obtain ⟨h1, h2⟩ := h 0 (by omega)
    simp only [Nat.add_zero] at h1 h2
    obtain ⟨rest, hrest⟩ := ih (i + 1) (fun j hj => by
      obtain ⟨a, b⟩ := h (j + 1) (by omega)
      exact ⟨by omega, by omega⟩)
    refine ⟨bws.getD i 0 * factors.getD i 0 :: rest, ?_⟩
    simp only [scaleBW, cfgGet_ok_of_lt h1 0, cfgGet_ok_of_lt h2 0, hrest,
      Bind.bind, Except.bind]

lemma scaleBW_error_of_short (bws factors : List ℚ) (k i : ℕ)
    (h : ¬ ∀ j, j < k → i + j < bws.length ∧ i + j < factors.length) :
    ∃ e, scaleBW bws factors i k = Except.error e := by
  cases hb : scaleBW bws factors i k with
  | ok ys => exact absurd (scaleBW_bounds_of_ok hb) h
  | error e => exact ⟨e, rfl⟩

lemma buildGrids_congr (m : List (List ℚ)) (mins maxs mins' maxs' : List (Option ℚ))
    (fracs fracs' : List ℚ) (ngrids ngrids' : List ℕ) : ∀ k i : ℕ,
    (∀ j, i ≤ j → j < i + k → cfgGet mins' j = cfgGet mins j ∧
      cfgGet maxs' j = cfgGet maxs j ∧ cfgGet fracs' j = cfgGet fracs j ∧
      cfgGet ngrids' j = cfgGet ngrids j) →
    buildGrids m mins' maxs' fracs' ngrids' i k = buildGrids m mins maxs fracs ngrids i k := by
  intro k
  induction k with
  | zero => intro i _; rfl
  | succ k ih =>
    intro i h
    obtain ⟨e1, e2, e3, e4⟩ := h i (le_refl i) (by omega)
    simp only [buildGrids, e1, e2, e3, e4]
    congr 1
    funext mn
    congr 1
    funext mx
    congr 1
    funext fr
    congr 1
    funext ng
    rw [ih (i + 1) (fun j hj1 hj2 => h j (by omega) (by omega))]

lemma scaleBW_congr (bws factors bws' factors' : List ℚ) : ∀ k i : ℕ,
    (∀ j, i ≤ j → j < i + k → cfgGet bws' j = cfgGet bws j ∧
      cfgGet factors' j = cfgGet factors j) →
    scaleBW bws' factors' i k = scaleBW bws factors i k := by
  intro k
  induction k with
  | zero => intro i _; rfl
  | succ k ih =>
    intro i h
    obtain ⟨e1, e2⟩ := h i (le_refl i) (by omega)
    simp only [scaleBW, e1, e2]
    congr 1
    funext b
    congr 1
    funext f
    rw [ih (i + 1) (fun j hj1 hj2 => h j (by omega) (by omega))]

lemma autoBandwidths_length (m : List (List ℚ)) :
    (autoBandwidths m).length = nDim m := by
  simp [autoBandwidths]

/-- Witness for C4 (amended) at the spec's concrete example. -/
theorem make_vector_grid_evenly_spaced_witness :
    2 ≤ 5 ∧
    (make_vector_grid [0, 10] none none (1 / 10) 5).length = 5 ∧
    make_vector_grid [0, 10] none none (1 / 10) 5 = [-1, 2, 5, 8, 11] :=
  ⟨by norm_num,
    (make_vector_grid_evenly_spaced [0, 10] none none (1 / 10) 5 (by norm_num)).1,
    (make_vector_grid_evenly_spaced [0, 10] none none (1 / 10) 5 (by norm_num)).2.2.2.2⟩

/-- Witness for C5 (amended) on the non-constant vector `[0, 10]`. -/
theorem make_vector_grid_strictly_increasing_witness :
    vmin [0, 10] < vmax [0, 10] ∧ (0 : ℚ) ≤ 1 / 10 ∧ 2 ≤ 5 ∧
    List.Pairwise (· < ·) (make_vector_grid [0, 10] none none (1 / 10) 5) :=
  ⟨by norm_num [vmin, vmax], by norm_num, by norm_num,
    (make_vector_grid_strictly_increasing [0, 10] (1 / 10) 5
      (by norm_num [vmin, vmax]) (by norm_num) (by norm_num)).2.1⟩

/-- Witness for C8 with overrides `grid_min = 10 > grid_max = 0`. -/
theorem make_vector_grid_reversed_overrides_decreasing_witness :
    (0 : ℚ) < 10 ∧ (0 : ℚ) < 1 / 10 ∧
    (((0 : ℚ) - 10) * (1 / 10) < 0 ∧
      List.Pairwise (fun a b : ℚ => b < a)
        (make_vector_grid [0] (some 10) (some 0) (1 / 10) 4)) :=
  ⟨by norm_num, by norm_num,
    (make_vector_grid_reversed_overrides_decreasing [0] 10 0 (1 / 10) 4
      (by norm_num) (by norm_num)).2.1,
    (make_vector_grid_reversed_overrides_decreasing [0] 10 0 (1 / 10) 4
      (by norm_num) (by norm_num)).2.2⟩

/-- Witness for C9 on the non-constant vector `[0, 10]`. -/
theorem make_vector_grid_single_point_witness :
    vmin [0, 10] < vmax [0, 10] ∧ (0 : ℚ) ≤ 1 / 10 ∧
    make_vector_grid [0, 10] none none (1 / 10) 1 = [gridLo [0, 10] none none (1 / 10)] ∧
    gridHi [0, 10] none none (1 / 10) ∉ make_vector_grid [0, 10] none none (1 / 10) 1 :=
  ⟨by norm_num [vmin, vmax], by norm_num,
    (make_vector_grid_single_point [0, 10] (1 / 10) (by norm_num [vmin, vmax]) (by norm_num)).1,
    (make_vector_grid_single_point [0, 10] (1 / 10) (by norm_num [vmin, vmax]) (by norm_num)).2⟩

/-- C1 (code bug): the floor-clamp step is `.clip(min=ALMOST_ZERO)`, whose
numpy semantics let NaN and `+∞` raw kernel values pass through
uncorrected; on the 2-row Sample Matrix `[[0],[1]]` with resolution 2, a
kernel evaluation producing NaN (resp. `+∞`) at every mesh point yields a
returned Density Surface whose entries are NaN (resp. `+∞`), not finite
values at or above the floor constant, contradicting the guarantee. -/
theorem estimate_kernel_density_nonfinite_uncorrected :
    estimate_element_x_dimension_kernel_density nanKernel [[0], [1]]
        none none none none none (some [2])
      = Except.ok ([[-1 / 10], [11 / 10]], [RVal.NaN, RVal.NaN]) ∧
    estimate_element_x_dimension_kernel_density pinfKernel [[0], [1]]
        none none none none none (some [2])
      = Except.ok ([[-1 / 10], [11 / 10]], [RVal.PInf, RVal.PInf]) := by
  constructor <;>
    norm_num [estimate_element_x_dimension_kernel_density, nanKernel, pinfKernel, nDim,
      autoBandwidths, buildGrids, cfgGet, make_vector_grid, linspace, vmin, vmax, column,
      DIMENSION_FRACTION_GRID_EXTENSION, clipFloor,
      make_mesh_grid_point_x_dimension, List.range_succ, Except.bind, Bind.bind]

/-- C2 counterexample: on the Sample Matrix `[[0],[1]]` (d = 1), supplying
a resolution sequence of length 2 ≠ d raises no error — the extra entry 7
is silently ignored (truncation to the first d entries); and a 1-row
Sample Matrix `[[5]]` raises no error either (the modelled Bandwidth
Estimator substitutes its floor).  So the claim as stated — every such
call fails fast — is false. -/
theorem estimate_no_fail_on_long_config_or_one_row :
    nDim [[(0 : ℚ)], [1]] = 1 ∧
    estimate_element_x_dimension_kernel_density oneKernel [[0], [1]]
        none none none none none (some [2, 7])
      = Except.ok ([[-1 / 10], [11 / 10]], [RVal.fin 1, RVal.fin 1]) ∧
    estimate_element_x_dimension_kernel_density oneKernel [[(5 : ℚ)]]
        none none none none none (some [2])
      = Except.ok ([[5], [5]], [RVal.fin 1, RVal.fin 1]) := by
  refine ⟨by norm_num [nDim], ?_, ?_⟩ <;>
    norm_num [estimate_element_x_dimension_kernel_density, oneKernel, nDim,
      autoBandwidths, buildGrids, cfgGet, make_vector_grid, linspace, vmin, vmax, column,
      DIMENSION_FRACTION_GRID_EXTENSION, clipFloor, ALMOST_ZERO,
      make_mesh_grid_point_x_dimension, List.range_succ, Except.bind, Bind.bind]

lemma mesh_length (gs : List (List ℚ)) :
    (make_mesh_grid_point_x_dimension gs).length = (gs.map List.length).prod := by
  induction gs with
  | nil => simp [make_mesh_grid_point_x_dimension]
  | cons g gs ih =>
    simp only [make_mesh_grid_point_x_dimension, List.length_flatMap, Function.comp_def,
      List.length_map, List.map_cons, List.prod_cons]
    rw [List.map_const', List.sum_replicate, smul_eq_mul, ih]

lemma mesh_mem (gs : List (List ℚ)) (p : List ℚ) :
    p ∈ make_mesh_grid_point_x_dimension gs ↔ List.Forall₂ (· ∈ ·) p gs := by
  induction gs generalizing p with
  | nil => simp [make_mesh_grid_point_x_dimension, List.forall₂_nil_right_iff]
  | cons g gs ih =>
    simp only [make_mesh_grid_point_x_dimension, List.mem_flatMap, List.mem_map,
      List.forall₂_cons_right_iff]
    constructor
    · rintro ⟨x, hx, q, hq, rfl⟩
      exact ⟨x, q, hx, (ih q).mp hq, rfl⟩
    · rintro ⟨x, q, hx, hq, rfl⟩
      exact ⟨x, hx, q, (ih q).mpr hq, rfl⟩

lemma mesh_nodup (gs : List (List ℚ)) (h : ∀ g ∈ gs, g.Nodup) :
    (make_mesh_grid_point_x_dimension gs).Nodup := by
  induction gs with
  | nil => simp [make_mesh_grid_point_x_dimension]
  | cons g gs ih =>
    simp only [make_mesh_grid_point_x_dimension]
    rw [List.nodup_flatMap]
    constructor
    · intro x _
      refine (ih (fun g' hg' => h g' (by simp [hg']))).map ?_
      intro a b hab
      exact (List.cons.injEq x a x b).mp hab |>.2
    · refine (h g (by simp)).imp ?_
      intro a b hab l hla hlb
      obtain ⟨qa, _, rfl⟩ := List.mem_map.mp hla
      obtain ⟨qb, _, hqb⟩ := List.mem_map.mp hlb
      exact hab ((List.cons.injEq b qb a qa).mp hqb).1.symm

/-- C3: for `d ≥ 1` Dimension Grids (strictly increasing per the data
model), the Mesh Grid has length equal to the product of the grid lengths,
each point is a d-tuple, membership is exactly "one value from each
Dimension Grid, in column order" (the full Cartesian product), and no
combination occurs twice; the enumeration is a pure function of its input,
so two calls with identical inputs produce the identical order.  The
spec's d = 2 example with grids of lengths 3 and 4 yields exactly 12
points. -/
theorem mesh_grid_cartesian_product (gs : List (List ℚ)) (_hd : 1 ≤ gs.length)
    (hinc : ∀ g ∈ gs, List.Pairwise (· < ·) g) :
    (make_mesh_grid_point_x_dimension gs).length = (gs.map List.length).prod ∧
    (∀ p ∈ make_mesh_grid_point_x_dimension gs, p.length = gs.length) ∧
    (∀ p, p ∈ make_mesh_grid_point_x_dimension gs ↔ List.Forall₂ (· ∈ ·) p gs) ∧
    (make_mesh_grid_point_x_dimension gs).Nodup ∧
    (make_mesh_grid_point_x_dimension [[1, 2, 3], [10, 20, 30, 40]]).length = 12 := by
  refine ⟨mesh_length gs, ?_, fun p => mesh_mem gs p,
    mesh_nodup gs (fun g hg => (hinc g hg).imp (fun hab => ne_of_lt hab)), ?_⟩
  · intro p hp
    exact ((mesh_mem gs p).mp hp).length_eq
  · rw [mesh_length]
    norm_num

/-- Witness for C3 at the spec's d = 2 example. -/
theorem mesh_grid_cartesian_product_witness :
    1 ≤ ([[1, 2, 3], [10, 20, 30, 40]] : List (List ℚ)).length ∧
    (∀ g ∈ ([[1, 2, 3], [10, 20, 30, 40]] : List (List ℚ)), List.Pairwise (· < ·) g) ∧
    (make_mesh_grid_point_x_dimension [[1, 2, 3], [10, 20, 30, 40]]).length
      = (([[1, 2, 3], [10, 20, 30, 40]] : List (List ℚ)).map List.length).prod ∧
    (make_mesh_grid_point_x_dimension [[1, 2, 3], [10, 20, 30, 40]]).Nodup := by
  have hinc : ∀ g ∈ ([[1, 2, 3], [10, 20, 30, 40]] : List (List ℚ)),
      List.Pairwise (· < ·) g := by
    intro g hg
    simp only [List.mem_cons, List.not_mem_nil, or_false] at hg
    rcases hg with rfl | rfl <;> norm_num [List.pairwise_cons]
  exact ⟨by norm_num, hinc,
    (mesh_grid_cartesian_product [[1, 2, 3], [10, 20, 30, 40]] (by norm_num) hinc).1,
    (mesh_grid_cartesian_product [[1, 2, 3], [10, 20, 30, 40]] (by norm_num) hinc).2.2.2.1⟩

/-- C2 (amended): the call fails fast (an index error surfaced to the
caller) whenever a supplied per-dimension configuration sequence — grid
mins, grid maxs, extension fractions, resolutions, bandwidth factors, or
bandwidths when factors are also supplied — is SHORTER than the column
count d; a sequence LONGER than d does not fail: it is silently truncated
to its first d entries (the call is equal to the call with the sequence
truncated), and nothing is ever padded.  A Sample Matrix with fewer than
2 rows does not by itself fail (see the counterexample).  Supplied
bandwidths without factors are forwarded unchecked to the external kernel
evaluator. -/
theorem estimate_fails_fast_on_short_config
    (fftkde : List ℚ → List (List ℚ) → List (List ℚ) → List RVal)
    (m : List (List ℚ)) :
    (∀ mins : List (Option ℚ), mins.length < nDim m →
      ∃ e, estimate_element_x_dimension_kernel_density fftkde m none none
        (some mins) none none none = Except.error e) ∧
    (∀ maxs : List (Option ℚ), maxs.length < nDim m →
      ∃ e, estimate_element_x_dimension_kernel_density fftkde m none none
        none (some maxs) none none = Except.error e) ∧
    (∀ fracs : List ℚ, fracs.length < nDim m →
      ∃ e, estimate_element_x_dimension_kernel_density fftkde m none none
        none none (some fracs) none = Except.error e) ∧
    (∀ ngrids : List ℕ, ngrids.length < nDim m →
      ∃ e, estimate_element_x_dimension_kernel_density fftkde m none none
        none none none (some ngrids) = Except.error e) ∧
    (∀ factors : List ℚ, factors.length < nDim m →
      ∃ e, estimate_element_x_dimension_kernel_density fftkde m none
        (some factors) none none none none = Except.error e) ∧
    (∀ bws factors : List ℚ, bws.length < nDim m →
      ∃ e, estimate_element_x_dimension_kernel_density fftkde m (some bws)
        (some factors) none none none none = Except.error e) ∧
    (∀ mins : List (Option ℚ),
      estimate_element_x_dimension_kernel_density fftkde m none none
        (some (mins.take (nDim m))) none none none =
      estimate_element_x_dimension_kernel_density fftkde m none none
        (some mins) none none none) ∧
    (∀ maxs : List (Option ℚ),
      estimate_element_x_dimension_kernel_density fftkde m none none
        none (some (maxs.take (nDim m))) none none =
      estimate_element_x_dimension_kernel_density fftkde m none none
        none (some maxs) none none) ∧
    (∀ fracs : List ℚ,
      estimate_element_x_dimension_kernel_density fftkde m none none
        none none (some (fracs.take (nDim m))) none =
      estimate_element_x_dimension_kernel_density fftkde m none none
        none none (some fracs) none) ∧
    (∀ ngrids : List ℕ,
      estimate_element_x_dimension_kernel_density fftkde m none none
        none none none (some (ngrids.take (nDim m))) =
      estimate_element_x_dimension_kernel_density fftkde m none none
        none none none (some ngrids)) ∧
    (∀ bws factors : List ℚ,
      estimate_element_x_dimension_kernel_density fftkde m (some bws)
        (some (factors.take (nDim m))) none none none none =
      estimate_element_x_dimension_kernel_density fftkde m (some bws)
        (some factors) none none none none) ∧
    (∀ bws factors : List ℚ,
      estimate_element_x_dimension_kernel_density fftkde m (some (bws.take (nDim m)))
        (some factors) none none none none =
      estimate_element_x_dimension_kernel_density fftkde m (some bws)
        (some factors) none none none none) := by
  refine ⟨?_, ?_, ?_, ?_, ?_, ?_, ?_, ?_, ?_, ?_, ?_, ?_⟩
  · intro mins hshort
    obtain ⟨e, herr⟩ := buildGrids_error_of_short m mins
      (List.replicate (nDim m) none)
      (List.replicate (nDim m) DIMENSION_FRACTION_GRID_EXTENSION)
      (List.replicate (nDim m) DIMENSION_N_GRID) (nDim m) 0
      (by intro hall; have := (hall mins.length hshort).1; omega)
    refine ⟨e, ?_⟩
    simp only [estimate_element_x_dimension_kernel_density, Option.getD_some, Option.getD_none,
      herr, Bind.bind, Except.bind]
  · intro maxs hshort
    obtain ⟨e, herr⟩ := buildGrids_error_of_short m
      (List.replicate (nDim m) none) maxs
      (List.replicate (nDim m) DIMENSION_FRACTION_GRID_EXTENSION)
      (List.replicate (nDim m) DIMENSION_N_GRID) (nDim m) 0
      (by intro hall; have := (hall maxs.length hshort).2.1; omega)
    refine ⟨e, ?_⟩
    simp only [estimate_element_x_dimension_kernel_density, Option.getD_some, Option.getD_none,
      herr, Bind.bind, Except.bind]
  · intro fracs hshort
    obtain ⟨e, herr⟩ := buildGrids_error_of_short m
      (List.replicate (nDim m) none)
      (List.replicate (nDim m) none) fracs
      (List.replicate (nDim m) DIMENSION_N_GRID) (nDim m) 0
      (by intro hall; have := (hall fracs.length hshort).2.2.1; omega)
    refine ⟨e, ?_⟩
    simp only [estimate_element_x_dimension_kernel_density, Option.getD_some, Option.getD_none,
      herr, Bind.bind, Except.bind]
  · intro ngrids hshort
    obtain ⟨e, herr⟩ := buildGrids_error_of_short m
      (List.replicate (nDim m) none)
      (List.replicate (nDim m) none)
      (List.replicate (nDim m) DIMENSION_FRACTION_GRID_EXTENSION) ngrids (nDim m) 0
      (by intro hall; have := (hall ngrids.length hshort).2.2.2; omega)
    refine ⟨e, ?_⟩
    simp only [estimate_element_x_dimension_kernel_density, Option.getD_some, Option.getD_none,
      herr, Bind.bind, Except.bind]
  · intro factors hshort
    obtain ⟨e, herr⟩ := scaleBW_error_of_short (autoBandwidths m) factors (nDim m) 0
      (by intro hall; have := (hall factors.length hshort).2; omega)
    refine ⟨e, ?_⟩
    simp only [estimate_element_x_dimension_kernel_density, herr, Bind.bind, Except.bind]
  · intro bws factors hshort
    obtain ⟨e, herr⟩ := scaleBW_error_of_short bws factors (nDim m) 0
      (by intro hall; have := (hall bws.length hshort).1; omega)
    refine ⟨e, ?_⟩
    simp only [estimate_element_x_dimension_kernel_density, herr, Bind.bind, Except.bind]
  · intro mins
    have hco := buildGrids_congr m mins (List.replicate (nDim m) none)
      (mins.take (nDim m)) (List.replicate (nDim m) none)
      (List.replicate (nDim m) DIMENSION_FRACTION_GRID_EXTENSION)
      (List.replicate (nDim m) DIMENSION_FRACTION_GRID_EXTENSION)
      (List.replicate (nDim m) DIMENSION_N_GRID)
      (List.replicate (nDim m) DIMENSION_N_GRID) (nDim m) 0
      (fun j hj1 hj2 => ⟨cfgGet_take (by omega), rfl, rfl, rfl⟩)
    simp only [estimate_element_x_dimension_kernel_density, Option.getD_some, Option.getD_none, hco]
  · intro maxs
    have hco := buildGrids_congr m (List.replicate (nDim m) none) maxs
      (List.replicate (nDim m) none) (maxs.take (nDim m))
      (List.replicate (nDim m) DIMENSION_FRACTION_GRID_EXTENSION)
      (List.replicate (nDim m) DIMENSION_FRACTION_GRID_EXTENSION)
      (List.replicate (nDim m) DIMENSION_N_GRID)
      (List.replicate (nDim m) DIMENSION_N_GRID) (nDim m) 0
      (fun j hj1 hj2 => ⟨rfl, cfgGet_take (by omega), rfl, rfl⟩)
    simp only [estimate_element_x_dimension_kernel_density, Option.getD_some, Option.getD_none, hco]
  · intro fracs
    have hco := buildGrids_congr m (List.replicate (nDim m) none)
      (List.replicate (nDim m) none)
      (List.replicate (nDim m) none) (List.replicate (nDim m) none)
      fracs (fracs.take (nDim m))
      (List.replicate (nDim m) DIMENSION_N_GRID)
      (List.replicate (nDim m) DIMENSION_N_GRID) (nDim m) 0
      (fun j hj1 hj2 => ⟨rfl, rfl, cfgGet_take (by omega), rfl⟩)
    simp only [estimate_element_x_dimension_kernel_density, Option.getD_some, Option.getD_none, hco]
  · intro ngrids
    have hco := buildGrids_congr m (List.replicate (nDim m) none)
      (List.replicate (nDim m) none)
      (List.replicate (nDim m) none) (List.replicate (nDim m) none)
      (List.replicate (nDim m) DIMENSION_FRACTION_GRID_EXTENSION)
      (List.replicate (nDim m) DIMENSION_FRACTION_GRID_EXTENSION)
      ngrids (ngrids.take (nDim m)) (nDim m) 0
      (fun j hj1 hj2 => ⟨rfl, rfl, rfl, cfgGet_take (by omega)⟩)
    simp only [estimate_element_x_dimension_kernel_density, Option.getD_some, Option.getD_none, hco]
  · intro bws factors
    have hco := scaleBW_congr bws factors bws (factors.take (nDim m)) (nDim m) 0
      (fun j hj1 hj2 => ⟨rfl, cfgGet_take (by omega)⟩)
    simp only [estimate_element_x_dimension_kernel_density, hco]
  · intro bws factors
    have hco := scaleBW_congr bws factors (bws.take (nDim m)) factors (nDim m) 0
      (fun j hj1 hj2 => ⟨cfgGet_take (by omega), rfl⟩)
    simp only [estimate_element_x_dimension_kernel_density, hco]

/-- Witness for C2 (amended) on the Sample Matrix `[[0],[1]]` (d = 1): a
supplied empty resolution sequence fails fast with an error, and a
resolution sequence of length 2 is equal to its truncation to the first
entry. -/
theorem estimate_fails_fast_on_short_config_witness :
    (([] : List ℕ).length < nDim [[(0 : ℚ)], [1]] ∧
      ∃ e, estimate_element_x_dimension_kernel_density oneKernel [[0], [1]] none none
        none none none (some []) = Except.error e) ∧
    estimate_element_x_dimension_kernel_density oneKernel [[0], [1]] none none
        none none none (some ([2, 7].take (nDim [[(0 : ℚ)], [1]])))
      = estimate_element_x_dimension_kernel_density oneKernel [[0], [1]] none none
        none none none (some [2, 7]) :=
  ⟨⟨by norm_num [nDim],
    (estimate_fails_fast_on_short_config oneKernel [[0], [1]]).2.2.2.1 []
      (by norm_num [nDim])⟩,
    (estimate_fails_fast_on_short_config oneKernel [[0], [1]]).2.2.2.2.2.2.2.2.2.1 [2, 7]⟩

lemma foldl_min_const (xs : List ℚ) (c : ℚ) (h : ∀ x ∈ xs, x = c) :
    xs.foldl min c = c := by
  induction xs with
  | nil => rfl
  | cons x xs ih =>
    rw [List.foldl_cons, h x (by simp), min_self]
    exact ih (fun y hy => h y (by simp [hy]))

lemma foldl_max_const (xs : List ℚ) (c : ℚ) (h : ∀ x ∈ xs, x = c) :
    xs.foldl max c = c := by
  induction xs with
  | nil => rfl
  | cons x xs ih =>
    rw [List.foldl_cons, h x (by simp), max_self]
    exact ih (fun y hy => h y (by simp [hy]))

lemma vmin_const {v : List ℚ} {c : ℚ} (hne : v ≠ []) (h : ∀ x ∈ v, x = c) :
    vmin v = c := by
  match v with
  | [] => exact absurd rfl hne
  | x :: xs =>
    unfold vmin
    rw [h x (by simp)]
    exact foldl_min_const xs c (fun y hy => h y (by simp [hy]))

lemma vmax_const {v : List ℚ} {c : ℚ} (hne : v ≠ []) (h : ∀ x ∈ v, x = c) :
    vmax v = c := by
  match v with
  | [] => exact absurd rfl hne
  | x :: xs =>
    unfold vmax
    rw [h x (by simp)]
    exact foldl_max_const xs c (fun y hy => h y (by simp [hy]))

lemma linspace_self (a : ℚ) (n : ℕ) : linspace a a n = List.replicate n a := by
  unfold linspace
  split_ifs with h0 h1
  · simp [h0]
  · simp [h1]
  · have hfun : (fun i : ℕ => a + (i : ℚ) * ((a - a) / ((n : ℚ) - 1))) = fun _ : ℕ => a := by
      funext i
      ring
    rw [hfun, List.map_const', List.length_range]

lemma make_vector_grid_const {v : List ℚ} {c : ℚ} (hne : v ≠ []) (h : ∀ x ∈ v, x = c)
    (f : ℚ) (n : ℕ) : make_vector_grid v none none f n = List.replicate n c := by
  rw [make_vector_grid_eq]
  unfold gridLo gridHi
  simp only [Option.getD_none, vmin_const hne h, vmax_const hne h]
  rw [show c - (c - c) * f = c by ring, show c + (c - c) * f = c by ring]
  exact linspace_self c n

/-- C6: a constant-valued (zero-variance) column raises no error: its
extension is zero, so its Dimension Grid under the default configuration
degenerates to `n_grid` copies of the constant, and the full estimation
call still returns a complete Density Surface (one entry per mesh point)
with every entry finite and at or above the floor constant — given that
the external kernel evaluation returns one finite raw value per
evaluation point. -/
theorem constant_column_accepted
    (fftkde : List ℚ → List (List ℚ) → List (List ℚ) → List RVal)
    (m : List (List ℚ)) (j : ℕ) (c : ℚ)
    (hne : m ≠ [])
    (hconst : ∀ row ∈ m, row.getD j 0 = c)
    (hk : ∀ bws data pts, ∃ qs : List ℚ,
      fftkde bws data pts = qs.map RVal.fin ∧ qs.length = pts.length) :
    make_vector_grid (column m j) none none DIMENSION_FRACTION_GRID_EXTENSION DIMENSION_N_GRID
      = List.replicate DIMENSION_N_GRID c ∧
    ∃ mesh dens,
      estimate_element_x_dimension_kernel_density fftkde m none none none none none none
        = Except.ok (mesh, dens) ∧
      dens.length = mesh.length ∧
      ∀ x ∈ dens, ∃ q : ℚ, x = RVal.fin q ∧ ALMOST_ZERO ≤ q := by
  constructor
  · refine make_vector_grid_const ?_ ?_ _ _
    · simp only [column, ne_eq, List.map_eq_nil_iff]
      exact hne
    · intro x hx
      obtain ⟨row, hrow, rfl⟩ := List.mem_map.mp hx
      exact hconst row hrow
  · obtain ⟨gs, hgs⟩ := buildGrids_ok_of_bounds m
      (List.replicate (nDim m) none)
      (List.replicate (nDim m) none)
      (List.replicate (nDim m) DIMENSION_FRACTION_GRID_EXTENSION)
      (List.replicate (nDim m) DIMENSION_N_GRID) (nDim m) 0
      (by intro j' hj'; simp only [List.length_replicate]; omega)
    obtain ⟨qs, hq, hlen⟩ := hk (autoBandwidths m) m (make_mesh_grid_point_x_dimension gs)
    refine ⟨make_mesh_grid_point_x_dimension gs,
      (fftkde (autoBandwidths m) m (make_mesh_grid_point_x_dimension gs)).map
        (clipFloor ALMOST_ZERO), ?_, ?_, ?_⟩
    · simp only [estimate_element_x_dimension_kernel_density, Option.getD_none, hgs,
        Bind.bind, Except.bind]
    · rw [hq]
      simp [hlen]
    · intro x hx
      rw [hq, List.map_map] at hx
      obtain ⟨q, _, rfl⟩ := List.mem_map.mp hx
      refine ⟨max q ALMOST_ZERO, ?_, le_max_right q ALMOST_ZERO⟩
      simp [Function.comp, clipFloor]

/-- Witness for C6 on the 2-row Sample Matrix `[[5],[5]]`, whose single
column is constant, with a benign kernel stub. -/
theorem constant_column_accepted_witness :
    make_vector_grid (column [[5], [5]] 0) none none DIMENSION_FRACTION_GRID_EXTENSION
        DIMENSION_N_GRID = List.replicate DIMENSION_N_GRID 5 ∧
    ∃ mesh dens,
      estimate_element_x_dimension_kernel_density oneKernel [[5], [5]] none none none none
          none none = Except.ok (mesh, dens) ∧
      dens.length = mesh.length ∧
      ∀ x ∈ dens, ∃ q : ℚ, x = RVal.fin q ∧ ALMOST_ZERO ≤ q :=
  constant_column_accepted oneKernel [[5], [5]] 0 5 (by simp)
    (by intro row hrow; simp only [List.mem_cons, List.not_mem_nil, or_false] at hrow
        rcases hrow with rfl | rfl <;> rfl)
    (fun bws data pts => ⟨pts.map (fun _ => 1), by simp [oneKernel], by simp⟩)

/-- C7: supplying `dimension_bandwidths` explicitly equal to the values the
Bandwidth Estimator would compute (`autoBandwidths`) yields exactly the
same (Mesh Grid, Density Surface) pair as the auto-estimating call with all
other arguments identical; the resolution step is deterministic with no
hidden randomness, so the two calls are definitionally the same
computation. -/
theorem explicit_auto_bandwidth_identical
    (fftkde : List ℚ → List (List ℚ) → List (List ℚ) → List RVal)
    (m : List (List ℚ)) (factors : Option (List ℚ))
    (mins maxs : Option (List (Option ℚ))) (fracs : Option (List ℚ))
    (ngrids : Option (List ℕ)) :
    estimate_element_x_dimension_kernel_density fftkde m (some (autoBandwidths m))
        factors mins maxs fracs ngrids
      = estimate_element_x_dimension_kernel_density fftkde m none
        factors mins maxs fracs ngrids := rfl

end Kraft

namespace Kwat

lemma dSeq_succ {α : Type} (drop : α → ℕ → α) (da : α) (ax : ℕ) (n : ℕ) :
    dSeq drop da ax (n + 1)
      = (drop (dSeq drop da ax n).1 (dSeq drop da ax n).2,
          toggleAx (dSeq drop da ax n).2) := rfl

lemma dropUntilAux_spec {α : Type} (drop : α → ℕ → α) (shape : α → ℕ × ℕ)
    (hmono : ∀ a ax, (shape (drop a ax)).1 ≤ (shape a).1 ∧
      (shape (drop a ax)).2 ≤ (shape a).2)
    (da0 : α) (ax0 : ℕ) :
    ∀ fuel k (re : Bool), (1 ≤ k → re = true) →
      (shape (dSeq drop da0 ax0 k).1).1 + (shape (dSeq drop da0 ax0 k).1).2
        + (if re then 1 else 2) ≤ fuel →
      ∃ n, dropUntilAux drop shape fuel (dSeq drop da0 ax0 k).1 (dSeq drop da0 ax0 k).2
          (shape (dSeq drop da0 ax0 k).1) re k = some ((dSeq drop da0 ax0 n).1, n) ∧
        k + (if re then 1 else 2) ≤ n ∧
        shape (dSeq drop da0 ax0 (n - 1)).1 = shape (dSeq drop da0 ax0 n).1 ∧
        ∀ j, k + 1 ≤ j → 2 ≤ j → j < n →
          shape (dSeq drop da0 ax0 (j - 1)).1 ≠ shape (dSeq drop da0 ax0 j).1 := by
  intro fuel
  induction fuel with
  | zero =>
    intro k re _ hfuel
    cases re <;> simp only [if_true, if_false, Bool.false_eq_true] at hfuel <;> omega
  | succ fuel ih =>
    intro k re hre hfuel
    have hm1 : (shape (dSeq drop da0 ax0 (k + 1)).1).1 ≤ (shape (dSeq drop da0 ax0 k).1).1 :=
      (hmono (dSeq drop da0 ax0 k).1 (dSeq drop da0 ax0 k).2).1
    have hm2 : (shape (dSeq drop da0 ax0 (k + 1)).1).2 ≤ (shape (dSeq drop da0 ax0 k).1).2 :=
      (hmono (dSeq drop da0 ax0 k).1 (dSeq drop da0 ax0 k).2).2
    cases re with
    | false =>
      have hfuel' : (shape (dSeq drop da0 ax0 (k + 1)).1).1
          + (shape (dSeq drop da0 ax0 (k + 1)).1).2 + (if true then 1 else 2) ≤ fuel := by
        simp only [if_true]
        simp only [Bool.false_eq_true, if_false] at hfuel
        omega
      obtain ⟨n, hres, hn, hstop, hmin⟩ := ih (k + 1) true (fun _ => rfl) hfuel'
      refine ⟨n, ?_, ?_, hstop, ?_⟩
      · simp only [dropUntilAux]
        rw [if_neg (by simp)]
        exact hres
      · simp only [if_true] at hn
        simp only [Bool.false_eq_true, if_false]
        omega
      · intro j hj1 hj2 hjn
        rcases Nat.lt_or_ge j (k + 2) with hj | hj
        · exact absurd (hre (by omega)) (by simp)
        · exact hmin j (by omega) hj2 hjn
    | true =>
      by_cases heq : shape (dSeq drop da0 ax0 k).1
          = shape (drop (dSeq drop da0 ax0 k).1 (dSeq drop da0 ax0 k).2)
      · refine ⟨k + 1, ?_, ?_, ?_, ?_⟩
        · simp only [dropUntilAux]
          rw [if_pos ⟨by trivial, heq⟩]
          rfl
        · simp only [if_true]
          omega
        · simpa [dSeq_succ] using heq
        · intro j hj1 _ hjn
          omega
      · have hne : shape (dSeq drop da0 ax0 k).1 ≠ shape (dSeq drop da0 ax0 (k + 1)).1 := heq
        have hne' : ¬((shape (dSeq drop da0 ax0 k).1).1
            = (shape (dSeq drop da0 ax0 (k + 1)).1).1 ∧
            (shape (dSeq drop da0 ax0 k).1).2
            = (shape (dSeq drop da0 ax0 (k + 1)).1).2) := by
          intro hh
          exact hne (Prod.ext_iff.mpr hh)
        have hfuel' : (shape (dSeq drop da0 ax0 (k + 1)).1).1
            + (shape (dSeq drop da0 ax0 (k + 1)).1).2 + (if true then 1 else 2) ≤ fuel := by
          simp only [if_true] at hfuel ⊢
          omega
        obtain ⟨n, hres, hn, hstop, hmin⟩ := ih (k + 1) true (fun _ => rfl) hfuel'
        refine ⟨n, ?_, ?_, hstop, ?_⟩
        · simp only [dropUntilAux]
          rw [if_neg (fun hc => heq hc.2)]
          exact hres
        · simp only [if_true] at hn ⊢
          omega
        · intro j hj1 hj2 hjn
          rcases Nat.lt_or_ge j (k + 2) with hj | hj
          · have hjk : j = k + 1 := by omega
            subst hjk
            simpa using hne
          · exact hmin j (by omega) hj2 hjn

/-- C10: assuming every `drop` call never grows the dataframe shape
componentwise, `drop_until` terminates (within the stated fuel) for every
input, performs at least two `drop` calls, and returns the result of the
first `drop` call — from the second onward — that leaves the shape
unchanged: the shape changed at every earlier call from the second onward
and is unchanged at the last. -/
theorem drop_until_terminates {α : Type} (drop : α → ℕ → α) (shape : α → ℕ × ℕ)
    (hmono : ∀ a ax, (shape (drop a ax)).1 ≤ (shape a).1 ∧
      (shape (drop a ax)).2 ≤ (shape a).2)
    (da : α) (axOpt : Option ℕ) :
    ∃ r n, drop_until drop shape da axOpt = some (r, n) ∧ 2 ≤ n ∧
      r = (dSeq drop da (axOpt.getD (axInit (shape da))) n).1 ∧
      shape (dSeq drop da (axOpt.getD (axInit (shape da))) (n - 1)).1
        = shape (dSeq drop da (axOpt.getD (axInit (shape da))) n).1 ∧
      ∀ j, 2 ≤ j → j < n →
        shape (dSeq drop da (axOpt.getD (axInit (shape da))) (j - 1)).1
          ≠ shape (dSeq drop da (axOpt.getD (axInit (shape da))) j).1 := by
  obtain ⟨n, hres, hn, hstop, hmin⟩ := dropUntilAux_spec drop shape hmono da
    (axOpt.getD (axInit (shape da))) ((shape da).1 + (shape da).2 + 2) 0 false
    (fun h => absurd h (by omega)) (by simp [dSeq])
  refine ⟨(dSeq drop da (axOpt.getD (axInit (shape da))) n).1, n, hres, ?_, rfl, hstop, ?_⟩
  · simpa using hn
  · intro j hj2 hjn
    exact hmin j (by omega) hj2 hjn

/-- Witness for C10: the identity `drop` on a shape-valued state never
grows the shape; `drop_until` then terminates after exactly the first two
calls. -/
theorem drop_until_terminates_witness :
    ∃ r n, drop_until (fun (a : ℕ × ℕ) (_ : ℕ) => a) (fun a => a) (3, 4) none
        = some (r, n) ∧ 2 ≤ n ∧
      r = (dSeq (fun (a : ℕ × ℕ) (_ : ℕ) => a) (3, 4)
        ((none : Option ℕ).getD (axInit ((fun (a : ℕ × ℕ) => a) (3, 4)))) n).1 ∧
      (fun (a : ℕ × ℕ) => a) (dSeq (fun (a : ℕ × ℕ) (_ : ℕ) => a) (3, 4)
          ((none : Option ℕ).getD (axInit ((fun (a : ℕ × ℕ) => a) (3, 4)))) (n - 1)).1
        = (fun (a : ℕ × ℕ) => a) (dSeq (fun (a : ℕ × ℕ) (_ : ℕ) => a) (3, 4)
          ((none : Option ℕ).getD (axInit ((fun (a : ℕ × ℕ) => a) (3, 4)))) n).1 ∧
      ∀ j, 2 ≤ j → j < n →
        (fun (a : ℕ × ℕ) => a) (dSeq (fun (a : ℕ × ℕ) (_ : ℕ) => a) (3, 4)
            ((none : Option ℕ).getD (axInit ((fun (a : ℕ × ℕ) => a) (3, 4)))) (j - 1)).1
          ≠ (fun (a : ℕ × ℕ) => a) (dSeq (fun (a : ℕ × ℕ) (_ : ℕ) => a) (3, 4)
            ((none : Option ℕ).getD (axInit ((fun (a : ℕ × ℕ) => a) (3, 4)))) j).1 :=
  drop_until_terminates (fun a _ => a) (fun a => a)
    (fun _ _ => ⟨le_refl _, le_refl _⟩) (3, 4) none

end Kwat
